import Mathlib

/-!
Shallow embedding of the resilient ingestion layer of
`tabootv/taboo-subscriptions-sync`: the in-memory dead-letter store
(`DeadLetterQueueService`), the rate limiter (`RateLimiterService`), the
retry wrapper of the Whop API client (`makeRequestWithRetry`), the
backoff/jitter utilities (`delay.util.ts`), the circuit-breaker state
reader (`CircuitBreakerService.getCircuitBreakerState`) and the graceful
degradation gate (`GracefulDegradationService`).

Wall-clock time (`Date.now()` / `new Date()`) is passed explicitly: as a
natural number of milliseconds for the dead-letter store and as a rational
for the rate limiter (its `minDelayBetweenRequests = 1000 / requestsPerSecond`
need not be an integer).  Opaque `any` payloads are modelled as strings.
-/

namespace TabooSync

/-- An entry of the dead-letter store (`FailedEvent` in
`dead-letter-queue.service.ts`).  `payload` is `any` in the source and is
modelled as an opaque string; `timestamp` is the `new Date()` clock value
at insertion/update time, in milliseconds. -/
structure FailedEvent where
  id : String
  eventType : String
  payload : String
  error : String
  timestamp : Nat
  retryCount : Nat
deriving Repr, DecidableEq

/-- State and configuration of `DeadLetterQueueService`: the backing array
`dlq` (in insertion order: `push` appends at the end), `MAX_DLQ_SIZE` and
`DLQ_ALERT_THRESHOLD`. -/
structure DlqState where
  dlq : List FailedEvent
  maxSize : Nat
  alertThreshold : Nat
deriving Repr, DecidableEq

/-- A fresh store with the given configuration. -/
def dlqInit (maxSize alertThreshold : Nat) : DlqState :=
  { dlq := [], maxSize := maxSize, alertThreshold := alertThreshold }

/-- The upsert branch of `addFailedEvent`: `this.dlq.find(e => e.id === eventId)`
returns the first matching entry, whose `retryCount`, `error` and `timestamp`
fields are then mutated in place. -/
def updateFirst (l : List FailedEvent) (eventId error : String)
    (retryCount now : Nat) : List FailedEvent :=
  match l with
  | [] => []
  | e :: rest =>
    if e.id = eventId then
      { e with retryCount := retryCount, error := error, timestamp := now } :: rest
    else
      e :: updateFirst rest eventId error retryCount now

/-- `archiveOldEvents`: `this.dlq.splice(0, Math.floor(this.dlq.length * 0.2))`
removes the oldest 20% from the front.  For array lengths in the IEEE-754
safe range, `Math.floor(n * 0.2)` equals the floor division `n / 5`. -/
def archiveOldEvents (l : List FailedEvent) : List FailedEvent :=
  l.drop (l.length / 5)

/-- `addFailedEvent(eventId, eventType, payload, error, retryCount)` at clock
value `now`.  The returned boolean records whether the `alert` call fired,
which in the source happens after a push when `dlq.length >= alertThreshold`
(the upsert branch returns early and never alerts). -/
def addFailedEvent (s : DlqState) (eventId eventType payload error : String)
    (retryCount : Nat) (now : Nat) : DlqState × Bool :=
  if s.dlq.any (fun e => e.id == eventId) then
    ({ s with dlq := updateFirst s.dlq eventId error retryCount now }, false)
  else
    let trimmed := if s.maxSize ≤ s.dlq.length then archiveOldEvents s.dlq else s.dlq
    let next := trimmed ++ [⟨eventId, eventType, payload, error, now, retryCount⟩]
    ({ s with dlq := next }, decide (s.alertThreshold ≤ next.length))

/-- `getSize()`. -/
def getSize (s : DlqState) : Nat := s.dlq.length

/-- `getFailedEvents(limit?)`: a reversed copy of the store (most recently
pushed entry first).  In the source, `limit ? events.slice(0, limit) : events`
treats a zero limit as absent (JavaScript falsiness). -/
def getFailedEvents (s : DlqState) (limit : Option Nat) : List FailedEvent :=
  let events := s.dlq.reverse
  match limit with
  | some n => if n = 0 then events else events.take n
  | none => events

/-- `removeEvent(eventId)`: `findIndex` then `splice(index, 1)` — deletes the
first entry with the given id and reports whether one was found. -/
def removeFirst (l : List FailedEvent) (eventId : String) :
    List FailedEvent × Bool :=
  match l with
  | [] => ([], false)
  | e :: rest =>
    if e.id = eventId then (rest, true)
    else
      let r := removeFirst rest eventId
      (e :: r.1, r.2)

/-- `removeEvent(eventId)` on the store state. -/
def removeEvent (s : DlqState) (eventId : String) : DlqState × Bool :=
  let r := removeFirst s.dlq eventId
  ({ s with dlq := r.1 }, r.2)

/-- The externally invocable mutations of the dead-letter store. -/
inductive DlqOp where
  | add (eventId eventType payload error : String) (retryCount : Nat)
  | remove (eventId : String)
deriving Repr, DecidableEq

/-- Apply one operation at clock value `now`. -/
def applyOp (s : DlqState) (op : DlqOp) (now : Nat) : DlqState :=
  match op with
  | .add i t p er rc => (addFailedEvent s i t p er rc now).1
  | .remove i => (removeEvent s i).1

/-- Apply a timed sequence of operations. -/
def applyOps (s : DlqState) : List (DlqOp × Nat) → DlqState
  | [] => s
  | (op, t) :: rest => applyOps (applyOp s op t) rest

/-- A timed operation sequence starting from state `s` at clock value `t0`
whose clock values never decrease and whose `add` operations always use an
id not currently in the store (no upserts occur). -/
def GoodTrace (s : DlqState) (t0 : Nat) : List (DlqOp × Nat) → Prop
  | [] => True
  | (op, t) :: rest =>
    t0 ≤ t ∧
    (match op with
     | .add i _ _ _ _ => ∀ e ∈ s.dlq, e.id ≠ i
     | .remove _ => True) ∧
    GoodTrace (applyOp s op t) t rest

/-- State of `RateLimiterService` relevant to pacing: `lastRequestTime`,
the `consecutiveRateLimits` counter, the `pauseUntil` timestamp and the
configured `minDelayBetweenRequests = 1000 / requestsPerSecond` (a rational:
the division is exact JavaScript number division). -/
structure RateLimiterState where
  lastRequestTime : ℚ
  consecutiveRateLimits : Nat
  pauseUntil : ℚ
  minDelayBetweenRequests : ℚ
deriving Repr, DecidableEq

/-- `maxConsecutiveRateLimits` (hard-coded 3). -/
def maxConsecutiveRateLimits : Nat := 3

/-- `onRateLimitDetected()` at current clock value `now`: increment the
counter; once it reaches the threshold, set
`pauseUntil = max(pauseUntil, now + min(minDelayBetweenRequests * 5, 10000))`
and reset the counter. -/
def onRateLimitDetected (s : RateLimiterState) (now : ℚ) : RateLimiterState :=
  let c := s.consecutiveRateLimits + 1
  if maxConsecutiveRateLimits ≤ c then
    { s with
      pauseUntil := max s.pauseUntil (now + min (s.minDelayBetweenRequests * 5) 10000),
      consecutiveRateLimits := 0 }
  else
    { s with consecutiveRateLimits := c }

/-- `onSuccess()`: decay the counter toward zero (`Math.max(0, c - 1)`). -/
def onSuccess (s : RateLimiterState) : RateLimiterState :=
  if 0 < s.consecutiveRateLimits then
    { s with consecutiveRateLimits := s.consecutiveRateLimits - 1 }
  else s

/-- One iteration of the `processQueue` dispatch loop, releasing one queued
request, entered at clock value `now`: wait
`max(max(0, pauseUntil - now), max(0, minDelayBetweenRequests - (now - lastRequestTime)))`,
then set `lastRequestTime` to the post-wait clock value, reset `pauseUntil`
to 0 and resolve the request.  Returns the new state and the dispatch time
(the clock value after the wait, assuming the timer fires exactly on time). -/
def dispatchStep (s : RateLimiterState) (now : ℚ) : RateLimiterState × ℚ :=
  let waitForBackoff := max 0 (s.pauseUntil - now)
  let timeSinceLastRequest := now - s.lastRequestTime
  let waitForSpacing := max 0 (s.minDelayBetweenRequests - timeSinceLastRequest)
  let delayNeeded := max waitForBackoff waitForSpacing
  let dispatchTime := now + delayNeeded
  ({ s with lastRequestTime := dispatchTime, pauseUntil := 0 }, dispatchTime)

/-- An HTTP-level failure as seen by `makeRequestWithRetry`: the status code
it extracts (`error.response?.status || error.status || 500`) together with
the rest of the error object, opaque to the retry logic. -/
structure HttpFailure where
  status : Nat
  message : String
deriving Repr, DecidableEq

/-- `makeRequestWithRetry(method, endpoint, config, attempt)`: the underlying
`makeRequest` is abstracted as an oracle `call` from the attempt number to
its outcome.  On an error whose status is 429 with `attempt < maxRetries`,
wait with backoff and recurse at `attempt + 1`; otherwise rethrow the error
unchanged.  The returned list is the trace of attempt numbers actually
performed, in order. -/
def makeRequestWithRetry {α : Type} (call : Nat → Except HttpFailure α)
    (maxRetries attempt : Nat) : List Nat × Except HttpFailure α :=
  match call attempt with
  | .ok v => ([attempt], .ok v)
  | .error e =>
    if h : e.status = 429 ∧ attempt < maxRetries then
      let r := makeRequestWithRetry call maxRetries (attempt + 1)
      (attempt :: r.1, r.2)
    else
      ([attempt], .error e)
termination_by maxRetries - attempt
decreasing_by
  omega

/-- The pre-jitter wait time of a retry:
`Math.max(retryAfter, this.retryBackoffBaseMs * Math.pow(2, attempt))`. -/
def computeWaitTime (retryAfter backoffBaseMs attempt : Nat) : Nat :=
  max retryAfter (backoffBaseMs * 2 ^ attempt)

/-- `delayWithJitter(baseDelayMs, jitterPercent)` from `delay.util.ts`, with
the `Math.random()` draw `r ∈ [0, 1)` made explicit:
`jitter = base * pct / 100`, `randomJitter = r * jitter * 2 - jitter`,
slept time `= max(0, base + randomJitter)`. -/
def delayWithJitterMs (baseDelayMs jitterPercent r : ℚ) : ℚ :=
  let jitter := baseDelayMs * jitterPercent / 100
  let randomJitter := r * jitter * 2 - jitter
  max 0 (baseDelayMs + randomJitter)

/-- The observable fields of an opossum circuit breaker that
`getCircuitBreakerState` reads: `breaker.open`, `breaker.halfOpen` and
`breaker.enabled`. -/
structure Breaker where
  isOpen : Bool
  isHalfOpen : Bool
  enabled : Bool
deriving Repr, DecidableEq

/-- The snapshot returned by `getCircuitBreakerState` (the `stats` field is
opaque and omitted). -/
structure BreakerState where
  state : String
  enabled : Bool
deriving Repr, DecidableEq

/-- `CircuitBreakerService.getCircuitBreakerState(name)`: look the name up in
the `breakers` map (modelled as an association list); absent names give
`null`; otherwise the state string is `'open'`, `'halfOpen'` or `'closed'`
from the breaker's flags. -/
def getCircuitBreakerState (breakers : List (String × Breaker)) (name : String) :
    Option BreakerState :=
  match breakers.find? (fun p => p.1 == name) with
  | none => none
  | some p =>
    some { state :=
             if p.2.isOpen then "open"
             else if p.2.isHalfOpen then "halfOpen"
             else "closed",
           enabled := p.2.enabled }

/-- The JavaScript test `whopState?.state === 'open'`: `false` on `null`. -/
def breakerOpenSignal (o : Option BreakerState) : Bool :=
  match o with
  | some st => decide (st.state = "open")
  | none => false

/-- Result shape of the degradation gate checks. -/
structure GateResult where
  allowed : Bool
  reason : Option String
  retryAfter : Option Nat
deriving Repr, DecidableEq

/-- `GracefulDegradationService.canProcessAnalysis()`, with the collaborators
made explicit: the circuit-breaker map, the current DLQ size and the
configured `MAX_DLQ_SIZE`. -/
def canProcessAnalysis (breakers : List (String × Breaker))
    (dlqSize maxDlqSize : Nat) : GateResult :=
  let whopState := getCircuitBreakerState breakers "whop-api"
  if breakerOpenSignal whopState then
    { allowed := false,
      reason := some "Whop API is unavailable (circuit breaker open)",
      retryAfter := some 60 }
  else if maxDlqSize ≤ dlqSize then
    { allowed := false,
      reason := some "Dead letter queue is full",
      retryAfter := some 300 }
  else
    { allowed := true, reason := none, retryAfter := none }

/-- `GracefulDegradationService.canProcessBackfill()`: rejects with no
`retryAfter` hint when the whop-api breaker is open. -/
def canProcessBackfill (breakers : List (String × Breaker)) : GateResult :=
  let whopState := getCircuitBreakerState breakers "whop-api"
  if breakerOpenSignal whopState then
    { allowed := false,
      reason := some "Whop API is unavailable (circuit breaker open)",
      retryAfter := none }
  else
    { allowed := true, reason := none, retryAfter := none }

/-- Entries sorted by non-decreasing timestamp (insertion order agrees with
time order). -/
def TimeSorted (l : List FailedEvent) : Prop :=
  l.Pairwise (fun a b => a.timestamp ≤ b.timestamp)

/-- Every stored timestamp is at most `t`. -/
def TimeBounded (l : List FailedEvent) (t : Nat) : Prop :=
  ∀ e ∈ l, e.timestamp ≤ t

lemma breakerOpenSignal_iff (o : Option BreakerState) :
    breakerOpenSignal o = true ↔ ∃ st, o = some st ∧ st.state = "open" := by
  cases o with
  | none => simp [breakerOpenSignal]
  | some st => simp [breakerOpenSignal]

/-- C2: with the whop-api breaker open, `canProcessAnalysis` rejects with
`retryAfter = 60` and `canProcessBackfill` rejects with no `retryAfter`
hint; with the breaker not open, `canProcessAnalysis` rejects with
`retryAfter = 300` when the DLQ size has reached `MAX_DLQ_SIZE` and allows
otherwise, and `canProcessBackfill` allows. -/
theorem c2_degradation_gate (bs : List (String × Breaker)) (dlqSize maxDlqSize : Nat) :
    ((∃ st, getCircuitBreakerState bs "whop-api" = some st ∧ st.state = "open") →
       ((canProcessAnalysis bs dlqSize maxDlqSize).allowed = false ∧
        (canProcessAnalysis bs dlqSize maxDlqSize).retryAfter = some 60) ∧
       (canProcessBackfill bs).allowed = false ∧
       (canProcessBackfill bs).retryAfter = none) ∧
    ((∀ st, getCircuitBreakerState bs "whop-api" = some st → st.state ≠ "open") →
       (maxDlqSize ≤ dlqSize →
          (canProcessAnalysis bs dlqSize maxDlqSize).allowed = false ∧
          (canProcessAnalysis bs dlqSize maxDlqSize).retryAfter = some 300) ∧
       (dlqSize < maxDlqSize →
          canProcessAnalysis bs dlqSize maxDlqSize =
            { allowed := true, reason := none, retryAfter := none }) ∧
       canProcessBackfill bs =
         { allowed := true, reason := none, retryAfter := none }) := by
  constructor
  · intro hopen
    have hb : breakerOpenSignal (getCircuitBreakerState bs "whop-api") = true :=
      (breakerOpenSignal_iff _).mpr hopen
    refine ⟨⟨?_, ?_⟩, ?_, ?_⟩ <;> simp [canProcessAnalysis, canProcessBackfill, hb]
  · intro hclosed
    have hb : breakerOpenSignal (getCircuitBreakerState bs "whop-api") = false := by
      rw [← Bool.not_eq_true, breakerOpenSignal_iff]
      rintro ⟨st, hst, hso⟩
      exact hclosed st hst hso
    refine ⟨fun hge => ?_, fun hlt => ?_, ?_⟩
    · constructor <;> simp [canProcessAnalysis, hb, hge]
    · simp [canProcessAnalysis, hb, Nat.not_le_of_lt hlt]
    · simp [canProcessBackfill, hb]

/-- Witness for C2 at concrete states: an open breaker, and a closed map
with a full DLQ. -/
theorem c2_degradation_gate_witness :
    (canProcessAnalysis [("whop-api", ⟨true, false, true⟩)] 0 10).retryAfter = some 60 ∧
    (canProcessBackfill [("whop-api", ⟨true, false, true⟩)]).retryAfter = none ∧
    (canProcessAnalysis [] 10 10).retryAfter = some 300 := by
  have h1 := (c2_degradation_gate [("whop-api", ⟨true, false, true⟩)] 0 10).1
    ⟨⟨"open", true⟩, by decide, rfl⟩
  have h2 := (c2_degradation_gate ([] : List (String × Breaker)) 10 10).2
    (by intro st hst; simp [getCircuitBreakerState] at hst)
  exact ⟨h1.1.2, h1.2.2, (h2.1 (Nat.le_refl 10)).2⟩

/-- C10: with no breaker named whop-api ever created, `getCircuitBreakerState`
returns `null` rather than failing, `canProcessBackfill` allows, and
`canProcessAnalysis` allows whenever the DLQ size is below `MAX_DLQ_SIZE`. -/
theorem c10_missing_breaker (bs : List (String × Breaker)) (dlqSize maxDlqSize : Nat)
    (h : bs.find? (fun p => p.1 == "whop-api") = none) :
    getCircuitBreakerState bs "whop-api" = none ∧
    canProcessBackfill bs = { allowed := true, reason := none, retryAfter := none } ∧
    (dlqSize < maxDlqSize →
      canProcessAnalysis bs dlqSize maxDlqSize =
        { allowed := true, reason := none, retryAfter := none }) := by
  have hs : getCircuitBreakerState bs "whop-api" = none := by
    simp [getCircuitBreakerState, h]
  refine ⟨hs, ?_, fun hlt => ?_⟩
  · simp [canProcessBackfill, hs, breakerOpenSignal]
  · simp [canProcessAnalysis, hs, breakerOpenSignal, Nat.not_le_of_lt hlt]

/-- Witness for C10: the empty breaker map with an empty DLQ. -/
theorem c10_missing_breaker_witness :
    getCircuitBreakerState ([] : List (String × Breaker)) "whop-api" = none ∧
    canProcessBackfill [] = { allowed := true, reason := none, retryAfter := none } ∧
    canProcessAnalysis [] 0 10 = { allowed := true, reason := none, retryAfter := none } := by
  have h := c10_missing_breaker [] 0 10 rfl
  exact ⟨h.1, h.2.1, h.2.2 (by decide)⟩

lemma onRateLimitDetected_pauseUntil_le (s : RateLimiterState) (now : ℚ) :
    s.pauseUntil ≤ (onRateLimitDetected s now).pauseUntil := by
  unfold onRateLimitDetected
  by_cases h : maxConsecutiveRateLimits ≤ s.consecutiveRateLimits + 1
  · simp only [h, if_true]
    exact le_max_left _ _
  · simp [h]

/-- C7: `onRateLimitDetected` increments the consecutive-rate-limit counter;
when the incremented counter reaches the threshold 3 it sets `pauseUntil` to
`max(pauseUntil, now + min(minDelayBetweenRequests * 5, 10000))` (never
decreasing it) and resets the counter to 0; below the threshold it leaves
`pauseUntil` unchanged. -/
theorem c7_rate_limit_penalty (s : RateLimiterState) (now : ℚ) :
    (s.consecutiveRateLimits + 1 < maxConsecutiveRateLimits →
       (onRateLimitDetected s now).pauseUntil = s.pauseUntil ∧
       (onRateLimitDetected s now).consecutiveRateLimits = s.consecutiveRateLimits + 1) ∧
    (maxConsecutiveRateLimits ≤ s.consecutiveRateLimits + 1 →
       (onRateLimitDetected s now).pauseUntil =
         max s.pauseUntil (now + min (s.minDelayBetweenRequests * 5) 10000) ∧
       (onRateLimitDetected s now).consecutiveRateLimits = 0) ∧
    s.pauseUntil ≤ (onRateLimitDetected s now).pauseUntil := by
  refine ⟨fun hlt => ?_, fun hge => ?_, onRateLimitDetected_pauseUntil_le s now⟩
  · have h : ¬ maxConsecutiveRateLimits ≤ s.consecutiveRateLimits + 1 :=
      Nat.not_le_of_lt hlt
    constructor <;> simp [onRateLimitDetected, h]
  · constructor <;> simp [onRateLimitDetected, hge]

/-- Witness for C7: counter 2 (so the increment reaches the threshold),
pending `pauseUntil = 7`, `minDelayBetweenRequests = 500`, at clock 100. -/
theorem c7_rate_limit_penalty_witness :
    (onRateLimitDetected ⟨0, 2, 7, 500⟩ 100).pauseUntil =
      max 7 (100 + min (500 * 5) 10000) ∧
    (onRateLimitDetected ⟨0, 2, 7, 500⟩ 100).consecutiveRateLimits = 0 :=
  (c7_rate_limit_penalty ⟨0, 2, 7, 500⟩ 100).2.1 (by decide)

/-- C8 counterexample: a dispatch-loop step on a state with `pauseUntil = 5000`
(entered at clock 100) assigns `pauseUntil := 0`, a strictly smaller value —
the dispatch loop does not keep `pauseUntil` non-decreasing. -/
theorem c8_pause_reset_counterexample :
    (dispatchStep ⟨0, 0, 5000, 500⟩ 100).1.pauseUntil <
      (⟨0, 0, 5000, 500⟩ : RateLimiterState).pauseUntil := by
  norm_num [dispatchStep]

/-- C8 (amended): `onRateLimitDetected` never decreases `pauseUntil` and
`onSuccess` leaves it unchanged; the dispatch-loop step does reset
`pauseUntil` to 0, but only after serving the pause — its dispatch time is at
least the `pauseUntil` in force (and at least the entry clock value). -/
theorem c8_amended_pause_monotone (s : RateLimiterState) (now : ℚ) :
    s.pauseUntil ≤ (onRateLimitDetected s now).pauseUntil ∧
    (onSuccess s).pauseUntil = s.pauseUntil ∧
    s.pauseUntil ≤ (dispatchStep s now).2 ∧
    now ≤ (dispatchStep s now).2 ∧
    (dispatchStep s now).1.pauseUntil = 0 := by
  refine ⟨onRateLimitDetected_pauseUntil_le s now, ?_, ?_, ?_, rfl⟩
  · unfold onSuccess
    by_cases h : 0 < s.consecutiveRateLimits <;> simp [h]
  · show s.pauseUntil ≤ now + max (max 0 (s.pauseUntil - now))
      (max 0 (s.minDelayBetweenRequests - (now - s.lastRequestTime)))
    have h1 : s.pauseUntil - now ≤ max 0 (s.pauseUntil - now) := le_max_right _ _
    have h2 : max 0 (s.pauseUntil - now) ≤
        max (max 0 (s.pauseUntil - now))
          (max 0 (s.minDelayBetweenRequests - (now - s.lastRequestTime))) :=
      le_max_left _ _
    linarith
  · show now ≤ now + max (max 0 (s.pauseUntil - now))
      (max 0 (s.minDelayBetweenRequests - (now - s.lastRequestTime)))
    have h1 : (0 : ℚ) ≤ max 0 (s.pauseUntil - now) := le_max_left _ _
    have h2 : max 0 (s.pauseUntil - now) ≤
        max (max 0 (s.pauseUntil - now))
          (max 0 (s.minDelayBetweenRequests - (now - s.lastRequestTime))) :=
      le_max_left _ _
    linarith

/-- C9: the pre-jitter wait is `max(serverRetryAfter, backoffBaseMs * 2^attempt)`;
with base 1000 and a server hint of at most 1000 the waits for attempts 0..3
are 1000, 2000, 4000, 8000 ms; the server hint is a floor (never an override
below the exponential term) and the sequence is strictly increasing while the
hint does not dominate; the ±30% jitter then applied keeps the slept time
within [0.7, 1.3] of the wait. -/
theorem c9_backoff_shape (ra : Nat) (hra : ra ≤ 1000) :
    (computeWaitTime ra 1000 0 = 1000 ∧ computeWaitTime ra 1000 1 = 2000 ∧
     computeWaitTime ra 1000 2 = 4000 ∧ computeWaitTime ra 1000 3 = 8000) ∧
    (∀ retryAfter base a : Nat,
       retryAfter ≤ computeWaitTime retryAfter base a ∧
       base * 2 ^ a ≤ computeWaitTime retryAfter base a) ∧
    (∀ retryAfter base a : Nat, 0 < base → retryAfter ≤ base * 2 ^ a →
       computeWaitTime retryAfter base a < computeWaitTime retryAfter base (a + 1)) ∧
    (∀ w r : ℚ, 0 ≤ w → 0 ≤ r → r ≤ 1 →
       7 / 10 * w ≤ delayWithJitterMs w 30 r ∧
       delayWithJitterMs w 30 r ≤ 13 / 10 * w) := by
  refine ⟨?_, ?_, ?_, ?_⟩
  · refine ⟨?_, ?_, ?_, ?_⟩ <;> · simp only [computeWaitTime] ; norm_num ; omega
  · intro retryAfter base a
    exact ⟨le_max_left _ _, le_max_right _ _⟩
  · intro retryAfter base a hb hle
    have hpos : 0 < base * 2 ^ a :=
      Nat.mul_pos hb (pow_pos (by norm_num) a)
    have hlt : base * 2 ^ a < base * 2 ^ (a + 1) := by
      rw [pow_succ, ← mul_assoc]
      omega
    calc computeWaitTime retryAfter base a = base * 2 ^ a := max_eq_right hle
      _ < base * 2 ^ (a + 1) := hlt
      _ ≤ computeWaitTime retryAfter base (a + 1) := le_max_right _ _
  · intro w r hw hr0 hr1
    unfold delayWithJitterMs
    constructor
    · have key : 7 / 10 * w ≤ w + (r * (w * 30 / 100) * 2 - w * 30 / 100) := by
        nlinarith
      exact le_trans key (le_max_right _ _)
    · apply max_le
      · nlinarith
      · nlinarith

/-- Witness for C9: server hint 500, base 1000; wait values at attempts 0 and
3, and the jitter lower bound at wait 4000 with draw 1/2. -/
theorem c9_backoff_shape_witness :
    computeWaitTime 500 1000 0 = 1000 ∧ computeWaitTime 500 1000 3 = 8000 ∧
    7 / 10 * (4000 : ℚ) ≤ delayWithJitterMs 4000 30 (1 / 2) := by
  have h := c9_backoff_shape 500 (by norm_num)
  exact ⟨h.1.1, h.1.2.2.2,
    (h.2.2.2 4000 (1 / 2) (by norm_num) (by norm_num) (by norm_num)).1⟩

lemma makeRequestWithRetry_retry {α : Type} (call : Nat → Except HttpFailure α)
    (mr a : Nat) (e : HttpFailure) (hc : call a = .error e) (hs : e.status = 429)
    (ha : a < mr) :
    makeRequestWithRetry call mr a =
      (a :: (makeRequestWithRetry call mr (a + 1)).1,
       (makeRequestWithRetry call mr (a + 1)).2) := by
  rw [makeRequestWithRetry, hc]
  dsimp only
  rw [dif_pos ⟨hs, ha⟩]

lemma makeRequestWithRetry_stop {α : Type} (call : Nat → Except HttpFailure α)
    (mr a : Nat) (e : HttpFailure) (hc : call a = .error e)
    (h : ¬ (e.status = 429 ∧ a < mr)) :
    makeRequestWithRetry call mr a = ([a], .error e) := by
  rw [makeRequestWithRetry, hc]
  dsimp only
  rw [dif_neg h]

/-- C1: with `maxRetries = 3`, if every attempt up to 3 fails with a 429
signal then exactly the four attempts 0, 1, 2, 3 are performed and the final
attempt's failure is raised; and any attempt whose failure is not a 429, or
that occurs with retries exhausted (`attempt ≥ maxRetries`), performs no
further attempt and propagates that failure unchanged. -/
theorem c1_retry_bound (α : Type) (call : Nat → Except HttpFailure α) :
    ((∀ n, n ≤ 3 → ∃ e, call n = Except.error e ∧ e.status = 429) →
       (makeRequestWithRetry call 3 0).1 = [0, 1, 2, 3] ∧
       (makeRequestWithRetry call 3 0).2 = call 3) ∧
    (∀ a e, call a = Except.error e → e.status ≠ 429 ∨ 3 ≤ a →
       makeRequestWithRetry call 3 a = ([a], Except.error e)) := by
  constructor
  · intro h429
    obtain ⟨e0, h0, s0⟩ := h429 0 (by omega)
    obtain ⟨e1, h1, s1⟩ := h429 1 (by omega)
    obtain ⟨e2, h2, s2⟩ := h429 2 (by omega)
    obtain ⟨e3, h3, s3⟩ := h429 3 (by omega)
    have q3 : makeRequestWithRetry call 3 3 = ([3], Except.error e3) :=
      makeRequestWithRetry_stop call 3 3 e3 h3 (by omega)
    have q2 : makeRequestWithRetry call 3 2 = ([2, 3], Except.error e3) := by
      rw [makeRequestWithRetry_retry call 3 2 e2 h2 s2 (by omega), q3]
    have q1 : makeRequestWithRetry call 3 1 = ([1, 2, 3], Except.error e3) := by
      rw [makeRequestWithRetry_retry call 3 1 e1 h1 s1 (by omega), q2]
    have q0 : makeRequestWithRetry call 3 0 = ([0, 1, 2, 3], Except.error e3) := by
      rw [makeRequestWithRetry_retry call 3 0 e0 h0 s0 (by omega), q1]
    rw [q0, h3]
    exact ⟨rfl, rfl⟩
  · intro a e hc hcond
    apply makeRequestWithRetry_stop call 3 a e hc
    rintro ⟨hs, ha⟩
    rcases hcond with h | h
    · exact h hs
    · omega

/-- Witness for C1: an oracle that always answers 429 makes exactly the four
attempts 0, 1, 2, 3 and raises the 429 failure. -/
theorem c1_retry_bound_witness :
    (makeRequestWithRetry
      (fun _ => Except.error ⟨429, "rate limited"⟩ : Nat → Except HttpFailure Unit)
      3 0).1 = [0, 1, 2, 3] ∧
    (makeRequestWithRetry
      (fun _ => Except.error ⟨429, "rate limited"⟩ : Nat → Except HttpFailure Unit)
      3 0).2 = Except.error ⟨429, "rate limited"⟩ := by
  have h := (c1_retry_bound Unit (fun _ => Except.error ⟨429, "rate limited"⟩)).1
    (fun n _ => ⟨⟨429, "rate limited"⟩, rfl, rfl⟩)
  exact ⟨h.1, h.2⟩

lemma any_id_iff (l : List FailedEvent) (i : String) :
    l.any (fun e => e.id == i) = true ↔ ∃ e ∈ l, e.id = i := by
  simp [List.any_eq_true]

lemma updateFirst_length (l : List FailedEvent) (i er : String) (rc t : Nat) :
    (updateFirst l i er rc t).length = l.length := by
  induction l with
  | nil => rfl
  | cons e rest ih =>
    unfold updateFirst
    by_cases h : e.id = i <;> simp [h, ih]

lemma updateFirst_mem (l : List FailedEvent) (i er : String) (rc t : Nat)
    (h : ∃ e ∈ l, e.id = i) :
    ∃ e ∈ updateFirst l i er rc t,
      e.id = i ∧ e.retryCount = rc ∧ e.error = er ∧ e.timestamp = t := by
  induction l with
  | nil => simp at h
  | cons e rest ih =>
    by_cases he : e.id = i
    · refine ⟨{ e with retryCount := rc, error := er, timestamp := t }, ?_, he, rfl, rfl, rfl⟩
      unfold updateFirst
      rw [if_pos he]
      exact List.mem_cons_self _ _
    · obtain ⟨x, hx, hxi⟩ := h
      rcases List.mem_cons.mp hx with hxe | hxr
      · exact absurd (hxe ▸ hxi) he
      · obtain ⟨y, hy, hyp⟩ := ih ⟨x, hxr, hxi⟩
        refine ⟨y, ?_, hyp⟩
        unfold updateFirst
        rw [if_neg he]
        exact List.mem_cons_of_mem _ hy

/-- C6: `addFailedEvent` is an idempotent upsert on id — a second call with
the same id leaves `getSize` unchanged and an entry with that id carries the
second call's `retryCount`, `error` and `timestamp`. -/
theorem c6_idempotent_upsert (s : DlqState) (eventId ty p er : String)
    (rc now : Nat) (ty2 p2 er2 : String) (rc2 now2 : Nat) :
    getSize (addFailedEvent
        (addFailedEvent s eventId ty p er rc now).1 eventId ty2 p2 er2 rc2 now2).1 =
      getSize (addFailedEvent s eventId ty p er rc now).1 ∧
    ∃ e ∈ (addFailedEvent
        (addFailedEvent s eventId ty p er rc now).1 eventId ty2 p2 er2 rc2 now2).1.dlq,
      e.id = eventId ∧ e.retryCount = rc2 ∧ e.error = er2 ∧ e.timestamp = now2 := by
  have hmem : ∃ e ∈ (addFailedEvent s eventId ty p er rc now).1.dlq, e.id = eventId := by
    unfold addFailedEvent
    by_cases h : s.dlq.any (fun e => e.id == eventId) = true
    · simp only [h, if_true]
      obtain ⟨e, he, h1, _, _, _⟩ :=
        updateFirst_mem s.dlq eventId er rc now ((any_id_iff _ _).mp h)
      exact ⟨e, he, h1⟩
    · simp only [h]
      refine ⟨⟨eventId, ty, p, er, now, rc⟩, ?_, rfl⟩
      simp
  have hany : (addFailedEvent s eventId ty p er rc now).1.dlq.any
      (fun e => e.id == eventId) = true := (any_id_iff _ _).mpr hmem
  constructor
  · conv_lhs => rw [addFailedEvent]
    rw [if_pos hany]
    simp [getSize, updateFirst_length]
  · conv in (addFailedEvent (addFailedEvent s eventId ty p er rc now).1 _ _ _ _ _ _) =>
      rw [addFailedEvent]
    rw [if_pos hany]
    exact updateFirst_mem _ eventId er2 rc2 now2 hmem

/-- C3 counterexample: with `alertThreshold = 1`, the insertion of "a" crosses
the threshold and alerts; the size then stays at or above the threshold, yet
the next insertion of "b" alerts again — the alert fires per qualifying
insertion, not once per upward crossing. -/
theorem c3_alert_counterexample :
    (addFailedEvent (dlqInit 100 1) "a" "t" "p" "e" 0 0).2 = true ∧
    (dlqInit 100 1).alertThreshold ≤
      getSize (addFailedEvent (dlqInit 100 1) "a" "t" "p" "e" 0 0).1 ∧
    (addFailedEvent (addFailedEvent (dlqInit 100 1) "a" "t" "p" "e" 0 0).1
      "b" "t" "p" "e" 0 1).2 = true := by
  decide

/-- C3 (amended): the observability alert fires on every insertion of a new
id whose resulting size is at or above `alertThreshold` (upserts of an
existing id never alert), rather than once per upward threshold crossing. -/
theorem c3_amended_alert_per_insertion (s : DlqState) (eventId ty p er : String)
    (rc now : Nat) :
    (addFailedEvent s eventId ty p er rc now).2 = true ↔
      ((∀ e ∈ s.dlq, e.id ≠ eventId) ∧
       s.alertThreshold ≤
         (if s.maxSize ≤ s.dlq.length then s.dlq.length - s.dlq.length / 5
          else s.dlq.length) + 1) := by
  by_cases h : s.dlq.any (fun e => e.id == eventId) = true
  · obtain ⟨e, he, hei⟩ := (any_id_iff _ _).mp h
    have hlhs : (addFailedEvent s eventId ty p er rc now).2 = false := by
      unfold addFailedEvent
      rw [if_pos h]
    rw [hlhs]
    simp only [Bool.false_eq_true, false_iff]
    rintro ⟨hfresh, -⟩
    exact hfresh e he hei
  · have hfresh : ∀ e ∈ s.dlq, e.id ≠ eventId := fun e he hei =>
      h ((any_id_iff _ _).mpr ⟨e, he, hei⟩)
    have hlhs : (addFailedEvent s eventId ty p er rc now).2 =
        decide (s.alertThreshold ≤
          (if s.maxSize ≤ s.dlq.length then s.dlq.length - s.dlq.length / 5
           else s.dlq.length) + 1) := by
      unfold addFailedEvent
      rw [if_neg h]
      by_cases hm : s.maxSize ≤ s.dlq.length
      · simp [hm, archiveOldEvents]
      · simp [hm]
    rw [hlhs]
    simp only [decide_eq_true_eq]
    exact ⟨fun hth => ⟨hfresh, hth⟩, fun hp => hp.2⟩

/-- C5 counterexample: with `maxSize = 4`, filling the store with four fresh
ids and adding a fifth (a state reachable purely through `addFailedEvent`)
evicts `floor(4 * 0.2) = 0` entries and pushes, leaving size 5 > `maxSize` —
the size bound fails when `maxSize < 5`. -/
theorem c5_capacity_counterexample :
    (dlqInit 4 100).maxSize <
      getSize (applyOps (dlqInit 4 100)
        [(DlqOp.add "a" "t" "p" "e" 0, 0), (DlqOp.add "b" "t" "p" "e" 0, 1),
         (DlqOp.add "c" "t" "p" "e" 0, 2), (DlqOp.add "d" "t" "p" "e" 0, 3),
         (DlqOp.add "f" "t" "p" "e" 0, 4)]) := by
  decide

/-- C5 (amended): provided `maxSize ≥ 5` (so the 20% eviction removes at
least one entry), `addFailedEvent` preserves `size ≤ maxSize`; and an
insertion of a new id that finds the store at capacity first evicts the
oldest `floor(size * 0.2)` entries from the front, then appends the new
entry. -/
theorem c5_amended_capacity (s : DlqState) (eventId ty p er : String)
    (rc now : Nat) (hmax : 5 ≤ s.maxSize) (hle : s.dlq.length ≤ s.maxSize) :
    getSize (addFailedEvent s eventId ty p er rc now).1 ≤ s.maxSize ∧
    ((∀ e ∈ s.dlq, e.id ≠ eventId) → s.maxSize ≤ s.dlq.length →
      (addFailedEvent s eventId ty p er rc now).1.dlq =
        s.dlq.drop (s.dlq.length / 5) ++ [⟨eventId, ty, p, er, now, rc⟩]) := by
  constructor
  · by_cases h : s.dlq.any (fun e => e.id == eventId) = true
    · have : (addFailedEvent s eventId ty p er rc now).1.dlq =
          updateFirst s.dlq eventId er rc now := by
        unfold addFailedEvent
        rw [if_pos h]
      simp only [getSize, this, updateFirst_length]
      exact hle
    · by_cases hm : s.maxSize ≤ s.dlq.length
      · have hlen : s.dlq.length = s.maxSize := Nat.le_antisymm hle hm
        have hdiv : 1 ≤ s.dlq.length / 5 := by
          rw [Nat.le_div_iff_mul_le (by norm_num)]
          omega
        have : (addFailedEvent s eventId ty p er rc now).1.dlq =
            s.dlq.drop (s.dlq.length / 5) ++ [⟨eventId, ty, p, er, now, rc⟩] := by
          unfold addFailedEvent
          rw [if_neg h]
          simp [hm, archiveOldEvents]
        simp only [getSize, this, List.length_append, List.length_drop,
          List.length_cons, List.length_nil]
        have hd5 : s.dlq.length / 5 ≤ s.dlq.length := Nat.div_le_self _ _
        omega
      · have : (addFailedEvent s eventId ty p er rc now).1.dlq =
            s.dlq ++ [⟨eventId, ty, p, er, now, rc⟩] := by
          unfold addFailedEvent
          rw [if_neg h]
          simp [hm]
        simp only [getSize, this, List.length_append, List.length_cons,
          List.length_nil]
        omega
  · intro hfresh hm
    have h : ¬ s.dlq.any (fun e => e.id == eventId) = true := fun hany =>
      match (any_id_iff _ _).mp hany with
      | ⟨e, he, hei⟩ => hfresh e he hei
    unfold addFailedEvent
    rw [if_neg h]
    simp [hm, archiveOldEvents]

/-- Witness for C5 at a store of five distinct entries at capacity
(`maxSize = 5`): the size stays within bound and the eviction drops the
single oldest entry before appending. -/
theorem c5_amended_capacity_witness :
    getSize (addFailedEvent
      ⟨[⟨"a", "t", "p", "e", 0, 0⟩, ⟨"b", "t", "p", "e", 1, 0⟩,
        ⟨"c", "t", "p", "e", 2, 0⟩, ⟨"d", "t", "p", "e", 3, 0⟩,
        ⟨"f", "t", "p", "e", 4, 0⟩], 5, 100⟩ "g" "t" "p" "e" 0 5).1 ≤ 5 ∧
    (addFailedEvent
      ⟨[⟨"a", "t", "p", "e", 0, 0⟩, ⟨"b", "t", "p", "e", 1, 0⟩,
        ⟨"c", "t", "p", "e", 2, 0⟩, ⟨"d", "t", "p", "e", 3, 0⟩,
        ⟨"f", "t", "p", "e", 4, 0⟩], 5, 100⟩ "g" "t" "p" "e" 0 5).1.dlq =
      [⟨"b", "t", "p", "e", 1, 0⟩, ⟨"c", "t", "p", "e", 2, 0⟩,
       ⟨"d", "t", "p", "e", 3, 0⟩, ⟨"f", "t", "p", "e", 4, 0⟩,
       ⟨"g", "t", "p", "e", 5, 0⟩] := by
  have h := c5_amended_capacity
    ⟨[⟨"a", "t", "p", "e", 0, 0⟩, ⟨"b", "t", "p", "e", 1, 0⟩,
      ⟨"c", "t", "p", "e", 2, 0⟩, ⟨"d", "t", "p", "e", 3, 0⟩,
      ⟨"f", "t", "p", "e", 4, 0⟩], 5, 100⟩ "g" "t" "p" "e" 0 5
    (by decide) (by decide)
  refine ⟨h.1, ?_⟩
  rw [h.2 (by decide) (by decide)]
  decide

lemma removeFirst_sublist (l : List FailedEvent) (i : String) :
    List.Sublist (removeFirst l i).1 l := by
  induction l with
  | nil => simp [removeFirst]
  | cons e rest ih =>
    unfold removeFirst
    by_cases h : e.id = i
    · rw [if_pos h]
      exact List.sublist_cons_self _ _
    · rw [if_neg h]
      exact ih.cons₂ e

lemma applyOp_preserves (s : DlqState) (op : DlqOp) (t t0 : Nat) (ht : t0 ≤ t)
    (hop : match op with
           | .add i _ _ _ _ => ∀ e ∈ s.dlq, e.id ≠ i
           | .remove _ => True)
    (hs : TimeSorted s.dlq) (hb : TimeBounded s.dlq t0) :
    TimeSorted (applyOp s op t).dlq ∧ TimeBounded (applyOp s op t).dlq t := by
  cases op with
  | add i ty p er rc =>
    have hfre : ∀ e ∈ s.dlq, e.id ≠ i := hop
    have hany : ¬ s.dlq.any (fun e => e.id == i) = true := fun hx =>
      match (any_id_iff _ _).mp hx with
      | ⟨e, he, hei⟩ => hfre e he hei
    have hdlq : (applyOp s (.add i ty p er rc) t).dlq =
        (if s.maxSize ≤ s.dlq.length then archiveOldEvents s.dlq else s.dlq)
          ++ [⟨i, ty, p, er, t, rc⟩] := by
      simp only [applyOp]
      unfold addFailedEvent
      rw [if_neg hany]
    have hsub : List.Sublist
        (if s.maxSize ≤ s.dlq.length then archiveOldEvents s.dlq else s.dlq) s.dlq := by
      split
      · exact List.drop_sublist _ _
      · exact List.Sublist.refl _
    rw [hdlq]
    constructor
    · rw [TimeSorted, List.pairwise_append]
      refine ⟨List.Pairwise.sublist hsub hs, List.pairwise_singleton _ _, ?_⟩
      intro a ha b hbm
      have hbe : b = ⟨i, ty, p, er, t, rc⟩ := by simpa using hbm
      rw [hbe]
      exact le_trans (hb a (hsub.subset ha)) ht
    · intro e he
      rcases List.mem_append.mp he with h1 | h2
      · exact le_trans (hb e (hsub.subset h1)) ht
      · have he2 : e = ⟨i, ty, p, er, t, rc⟩ := by simpa using h2
        rw [he2]
  | remove i =>
    have hsub := removeFirst_sublist s.dlq i
    exact ⟨List.Pairwise.sublist hsub hs,
      fun e he => le_trans (hb e (hsub.subset he)) ht⟩

lemma goodTrace_sorted (ops : List (DlqOp × Nat)) :
    ∀ (s : DlqState) (t0 : Nat), GoodTrace s t0 ops →
      TimeSorted s.dlq → TimeBounded s.dlq t0 →
      TimeSorted (applyOps s ops).dlq := by
  induction ops with
  | nil =>
    intro s t0 _ hs _
    exact hs
  | cons hd tl ih =>
    obtain ⟨op, t⟩ := hd
    intro s t0 hg hs hb
    obtain ⟨ht, hop, hg2⟩ := hg
    obtain ⟨hs2, hb2⟩ := applyOp_preserves s op t t0 ht hop hs hb
    exact ih (applyOp s op t) t hg2 hs2 hb2

/-- C4 counterexample: add "a" at time 0, add "b" at time 1, then upsert "a"
at time 2 — the upsert refreshes the timestamp in place, so
`getFailedEvents` yields timestamps 1, 2: not a descending-timestamp
sequence, refuting the claim for histories with duplicate-id upserts. -/
theorem c4_order_counterexample :
    ¬ List.Pairwise (fun a b => b.timestamp ≤ a.timestamp)
        (getFailedEvents (applyOps (dlqInit 10 100)
          [(DlqOp.add "a" "t" "p" "e" 0, 0), (DlqOp.add "b" "t" "p" "e" 0, 1),
           (DlqOp.add "a" "t" "p" "e2" 1, 2)]) none) := by
  decide

/-- C4 (amended): `getFailedEvents` returns the stored entries in reverse
insertion order, truncated to `limit` when a positive limit is given; for
histories built by `addFailedEvent`/`removeEvent` with non-decreasing clock
values and no duplicate-id upserts, this reverse insertion order is a
newest-first (descending-timestamp) sequence.  (An upsert refreshes the
entry's timestamp in place without moving it, breaking the
timestamp-descending reading.) -/
theorem c4_newest_first (maxSize alertThreshold : Nat) (ops : List (DlqOp × Nat))
    (hg : GoodTrace (dlqInit maxSize alertThreshold) 0 ops) (n : Nat) (hn : 0 < n) :
    List.Pairwise (fun a b => b.timestamp ≤ a.timestamp)
      (getFailedEvents (applyOps (dlqInit maxSize alertThreshold) ops) none) ∧
    getFailedEvents (applyOps (dlqInit maxSize alertThreshold) ops) (some n) =
      (getFailedEvents (applyOps (dlqInit maxSize alertThreshold) ops) none).take n := by
  have hs : TimeSorted (applyOps (dlqInit maxSize alertThreshold) ops).dlq :=
    goodTrace_sorted ops _ 0 hg List.Pairwise.nil
      (fun e he => absurd he (List.not_mem_nil e))
  constructor
  · show List.Pairwise _ ((applyOps (dlqInit maxSize alertThreshold) ops).dlq.reverse)
    rw [List.pairwise_reverse]
    exact hs
  · simp only [getFailedEvents]
    rw [if_neg (Nat.pos_iff_ne_zero.mp hn)]

/-- Witness for C4: two fresh insertions at times 0 and 1; the returned
sequence is descending in timestamp and `limit = 1` truncates it. -/
theorem c4_newest_first_witness :
    List.Pairwise (fun a b => b.timestamp ≤ a.timestamp)
      (getFailedEvents (applyOps (dlqInit 10 8)
        [(DlqOp.add "a" "t" "p" "e" 0, 0), (DlqOp.add "b" "t" "p" "e" 0, 1)]) none) ∧
    getFailedEvents (applyOps (dlqInit 10 8)
        [(DlqOp.add "a" "t" "p" "e" 0, 0), (DlqOp.add "b" "t" "p" "e" 0, 1)]) (some 1) =
      (getFailedEvents (applyOps (dlqInit 10 8)
        [(DlqOp.add "a" "t" "p" "e" 0, 0), (DlqOp.add "b" "t" "p" "e" 0, 1)]) none).take 1 := by
  have hg : GoodTrace (dlqInit 10 8) 0
      [(DlqOp.add "a" "t" "p" "e" 0, 0), (DlqOp.add "b" "t" "p" "e" 0, 1)] := by
    refine ⟨Nat.le_refl 0, ?_, Nat.zero_le 1, ?_, trivial⟩
    · intro e he
      exact absurd he (List.not_mem_nil e)
    · decide
  exact c4_newest_first 10 8 _ hg 1 (by decide)

/-- Witness for the amended C3: the first insertion into an empty store with
`alertThreshold = 1` alerts. -/
theorem c3_amended_alert_per_insertion_witness :
    (addFailedEvent (dlqInit 100 1) "a" "t" "p" "e" 0 0).2 = true :=
  (c3_amended_alert_per_insertion (dlqInit 100 1) "a" "t" "p" "e" 0 0).mpr
    ⟨by decide, by decide⟩

/-- Witness for C6: upserting "a" into a store already holding "a" keeps the
size at 1. -/
theorem c6_idempotent_upsert_witness :
    getSize (addFailedEvent
      (addFailedEvent (dlqInit 10 8) "a" "t" "p" "e" 0 0).1
      "a" "t2" "p2" "e2" 1 5).1 =
      getSize (addFailedEvent (dlqInit 10 8) "a" "t" "p" "e" 0 0).1 :=
  (c6_idempotent_upsert (dlqInit 10 8) "a" "t" "p" "e" 0 0 "t2" "p2" "e2" 1 5).1

/-- Witness for the amended C8: the dispatch step from `pauseUntil = 5000`
at clock 100 dispatches no earlier than 5000 and then resets `pauseUntil`. -/
theorem c8_amended_pause_monotone_witness :
    (⟨0, 0, 5000, 500⟩ : RateLimiterState).pauseUntil ≤
      (dispatchStep ⟨0, 0, 5000, 500⟩ 100).2 ∧
    (dispatchStep ⟨0, 0, 5000, 500⟩ 100).1.pauseUntil = 0 :=
  ⟨(c8_amended_pause_monotone ⟨0, 0, 5000, 500⟩ 100).2.2.1,
   (c8_amended_pause_monotone ⟨0, 0, 5000, 500⟩ 100).2.2.2.2⟩

end TabooSync
